import Mathlib

/-!
# Struct member offset resolution (dale, `Operation/Offsetof/Offsetof.cpp`)

A shallow embedding of the four functions of `Offsetof.cpp`

* `nameToIndex`        (static helper, lines 9-21)
* `OffsetofGet`        (lines 23-48)
* `Offsetof`           (lines 50-66)
* `OffsetofGetByIndex` (lines 68-74)

together with the collaborators they call.  The collaborators (`Context`,
`Struct`, `ParseResult`, the LLVM data layout) are defined outside
`Offsetof.cpp`; they are modelled from the specification and every such
definition says so in its doc comment.

Conventions of the embedding

* `assert(e)` with a false `e` stops the process: the call has outcome
  `Outcome.aborted`, and nothing is handed back to the call site.
* `uint64_t` values are natural numbers; the conversion `uint64_t → size_t`
  written in the source is the explicit `% 2 ^ SIZE_T_BITS`.
* `int` is `Int`.
* The public entry points take the `Unit` (and `ParseResult`) they receive by
  pointer and hand back, next to their C++ return value, these objects as the
  call leaves them.
-/

namespace dale

/-! ## Collaborators -/

/-- Modelled from the spec: a dale `Type`.  `Offsetof.cpp` never looks inside a
type, it only hands it to the registry (`getStruct`) and to the lowering
(`toLLVMType`), so a type is an identifier. -/
structure DType where
  id : Nat
deriving DecidableEq, Repr

/-- Modelled from the spec: an `llvm::BasicBlock *`, the caller's code-generation
position.  Only its identity matters. -/
structure BasicBlock where
  id : Nat
deriving DecidableEq, Repr

/-- Modelled from the spec: a lowered (`llvm::Type`) type, as far as the data
layout model of section 4.2 distinguishes them: primitives of a fixed width,
pointers, and aggregates with their members in declaration order. -/
inductive LType where
  | int (bits : Nat)
  | pointer
  | struct (elems : List LType)
deriving Repr

/-- Modelled from the spec: `DataLayoutFacts` for the types that are not
aggregates: the per-target size and alignment (in bytes) of an integer of a
given width and of a pointer.  The spec fixes the answer of the layout query
`getIndexedOffset` only for an ordinal that names a member; the value the
query yields for any other request is left open and is the parameter
`unspecifiedOffset` of the layout model. -/
structure DataLayout where
  intSize : Nat → Nat
  intAlign : Nat → Nat
  pointerSize : Nat
  pointerAlign : Nat
  unspecifiedOffset : LType → Int → Nat

/-- Modelled from the spec: `alignUp(x, a) = ((x + a - 1) / a) * a`. -/
def alignUp (x a : Nat) : Nat := ((x + a - 1) / a) * a

mutual
/-- Modelled from the spec: `sizeOf(type)`; for an aggregate
`structSize = alignUp(runningOffset, structAlignment)` after the last member. -/
def sizeOf (dl : DataLayout) : LType → Nat
  | .int bits => dl.intSize bits
  | .pointer => dl.pointerSize
  | .struct elems => alignUp (runningEnd dl elems 0) (structAlignment dl elems)
/-- Modelled from the spec: `alignOf(type)`; for an aggregate the maximum of
the member alignments. -/
def alignOf (dl : DataLayout) : LType → Nat
  | .int bits => dl.intAlign bits
  | .pointer => dl.pointerAlign
  | .struct elems => structAlignment dl elems
/-- Modelled from the spec: the sequential layout algorithm run over all the
members, started at `runningOffset`: for each member
`runningOffset = alignUp(runningOffset, alignOf(memberType))`, then
`runningOffset += sizeOf(memberType)`.  The result is the running offset after
the last member. -/
def runningEnd (dl : DataLayout) : List LType → Nat → Nat
  | [], runningOffset => runningOffset
  | m :: ms, runningOffset =>
    runningEnd dl ms (alignUp runningOffset (alignOf dl m) + sizeOf dl m)
/-- Modelled from the spec: `structAlignment = max(alignOf(m) for m in members)`. -/
def structAlignment (dl : DataLayout) : List LType → Nat
  | [] => 0
  | m :: ms => max (alignOf dl m) (structAlignment dl ms)
end

/-- Modelled from the spec: the sequential layout algorithm run up to (not
including) the member at ordinal `index`, started at `runningOffset`; the
offset recorded for that member is `alignUp(runningOffset, alignOf(memberType))`.
There is no answer when the member list ends before `index`. -/
def offsetAt (dl : DataLayout) : List LType → Nat → Nat → Option Nat
  | [], _, _ => none
  | m :: _, runningOffset, 0 => some (alignUp runningOffset (alignOf dl m))
  | m :: ms, runningOffset, index + 1 =>
    offsetAt dl ms (alignUp runningOffset (alignOf dl m) + sizeOf dl m) index

/-- Modelled from the spec: `getIndexedOffset(type, index)` of the data layout
model: the offset of the member at ordinal `index`.  The query always yields a
`uint64_t`; when there is no such member (the type is no aggregate, or the
index is negative or not below the member count) the value is the one the
layout model leaves open, `unspecifiedOffset`. -/
def getIndexedOffset (dl : DataLayout) (type : LType) (index : Int) : Nat :=
  match type with
  | .struct elems =>
    if index < 0 then dl.unspecifiedOffset (.struct elems) index
    else
      match offsetAt dl elems 0 index.toNat with
      | some offset => offset
      | none => dl.unspecifiedOffset (.struct elems) index
  | other => dl.unspecifiedOffset other index

/-- Modelled from the spec: an `llvm::Value`.  The only value built in
`Offsetof.cpp` is the integer literal of `llvm::ConstantInt::get`; it records the
lowered type it was built for (a pointer that may be null) and its value. -/
inductive Value where
  | constantInt (type : Option LType) (value : Nat)
deriving Repr

/-- Modelled from the spec: `llvm::ConstantInt::get(type, v)`, a literal constant
of the given type. -/
def ConstantInt.get (type : Option LType) (v : Nat) : Value :=
  Value.constantInt type v

/-- Modelled from the spec: `StructType`, the ordered sequence of
`(memberName, memberType)` pairs. -/
structure Struct where
  name : String
  members : List (String × DType)

/-- Linear scan used by `Struct.nameToIndex`: ordinal of the first member
called `name`, counting from `i`; `-1` when there is none. -/
def Struct.scan : List (String × DType) → String → Int → Int
  | [], _, _ => -1
  | m :: rest, name, i => if m.1 = name then i else Struct.scan rest name (i + 1)

/-- Modelled from the spec: `Struct.nameToIndex(name) -> index | NotFound`, an
ordinal lookup by exact name match.  `NotFound` is the `-1` that
`Offsetof.cpp` tests for. -/
def Struct.nameToIndex (st : Struct) (name : String) : Int :=
  Struct.scan st.members name 0

/-- Modelled from the spec: the type register; `type_size` is the canonical
size type. -/
structure TypeRegister where
  type_size : DType

/-- Modelled from the spec: the compiler context, as far as `Offsetof.cpp` uses
it.  `getStruct` is the registry lookup `lookupStruct(type) -> Struct | null`,
`toLLVMType` the lowering of a type (null when the type cannot be resolved to a
concrete lowered type), `tr` the type register.  All three are read-only. -/
structure Context where
  getStruct : DType → Option Struct
  toLLVMType : DType → Option LType
  tr : TypeRegister

/-- Modelled from the spec: an `llvm::Module`, as far as `Offsetof.cpp` uses
it: the holder of the target's data layout. -/
structure Module where
  getDataLayout : DataLayout

/-- Modelled from the spec: a compilation unit: the context and the module. -/
structure Unit where
  ctx : Context
  module : Module

/-- Modelled from the spec: a `ParseResult`, the triple
`(position, resultType, constantValue)`; each field is a pointer that is null
until it is set. -/
structure ParseResult where
  block : Option BasicBlock
  type : Option DType
  value : Option Value

/-- Modelled from the spec: `ParseResult::set(block, type, value)`. -/
def ParseResult.set (_pr : ParseResult) (block : BasicBlock) (type : DType)
    (value : Value) : ParseResult :=
  { block := some block, type := some type, value := some value }

/-! ## Outcomes of a call -/

/-- The places where a call can stop the process instead of returning. -/
inductive Abort where
  /-- The `assert(st)` of `nameToIndex`. -/
  | assert_st
  /-- The `assert(index != -1)` of `nameToIndex`. -/
  | assert_index
deriving DecidableEq, Repr

/-- How a call ends: it returns a value to its call site, or the process is
stopped. -/
inductive Outcome (α : Type) where
  | returned (value : α)
  | aborted (a : Abort)

/-- Sequencing of calls: a stop in the first call is a stop of the whole. -/
def Outcome.bind {α β : Type} (x : Outcome α) (f : α → Outcome β) : Outcome β :=
  match x with
  | .returned v => f v
  | .aborted a => .aborted a

instance : Monad Outcome where
  pure := Outcome.returned
  bind := Outcome.bind

/-- Width of the compiler's `size_t` in bits (LP64 host). -/
def SIZE_T_BITS : Nat := 64

/-! ## `Offsetof.cpp` -/

/-- The static helper `nameToIndex` (lines 9-21):
`st = ctx->getStruct(type); assert(st); index = st->nameToIndex(member_name);
assert(index != -1); return index;`. -/
def nameToIndex (ctx : Context) (type : DType) (member_name : String) : Outcome Int :=
  match ctx.getStruct type with
  | none => .aborted .assert_st
  | some st =>
    let index := st.nameToIndex member_name
    if index = -1 then .aborted .assert_index else .returned index

/-- The function `OffsetofGet` (lines 23-48).  When the lowering yields a null type the
function executes `return false;`, which in a function returning `uint64_t` is
the value `0`.  Otherwise the vector `indices` holds the single native-int
constant built from `index`, and the function returns whatever the data layout
query yields for it; the index is not checked against the member count. -/
def OffsetofGet (unit : Unit) (type : DType) (index : Int) : Outcome (Nat × Unit) :=
  let ctx := unit.ctx
  match ctx.toLLVMType type with
  | none => .returned ((false : Bool).toNat, unit)
  | some llvm_type =>
    .returned (getIndexedOffset unit.module.getDataLayout llvm_type index, unit)

/-- The function `Offsetof` (lines 50-66):
`size_t size = OffsetofGet(unit, type, nameToIndex(unit->ctx, type, member_name));
pr->set(block, type_size, ConstantInt::get(toLLVMType(type_size), size));
return true;`. -/
def Offsetof (unit : Unit) (block : BasicBlock) (type : DType)
    (member_name : String) (pr : ParseResult) : Outcome (Bool × Unit × ParseResult) := do
  let index ← nameToIndex unit.ctx type member_name
  let (offset, unit) ← OffsetofGet unit type index
  let size := offset % 2 ^ SIZE_T_BITS
  let pr := pr.set block unit.ctx.tr.type_size
    (ConstantInt.get (unit.ctx.toLLVMType unit.ctx.tr.type_size) size)
  return (true, unit, pr)

/-- The function `OffsetofGetByIndex` (lines 68-74): `return OffsetofGet(unit, type, index);`
with the result converted from `uint64_t` to `size_t`. -/
def OffsetofGetByIndex (unit : Unit) (type : DType) (index : Int) : Outcome (Nat × Unit) := do
  let (offset, unit) ← OffsetofGet unit type index
  return (offset % 2 ^ SIZE_T_BITS, unit)

/-- A registered struct type whose lowering succeeded: `type` is registered as
the struct `st`, it lowers to the aggregate `elems`, and `elems` are the
lowered types of the members of `st`, in declaration order. -/
def Context.lowersStruct (ctx : Context) (type : DType) (st : Struct)
    (elems : List LType) : Prop :=
  ctx.getStruct type = some st ∧
  ctx.toLLVMType type = some (.struct elems) ∧
  st.members.map (fun m => ctx.toLLVMType m.2) = elems.map some

/-! ## Concrete units used by the witnesses -/

/-- A target with byte-sized alignment of integers: an `iN` takes `N / 8` bytes
(rounded up) and is aligned to its size; pointers are 8 bytes.  The value the
layout query yields where the layout fixes none is the parameter `stray`. -/
def targetWith (stray : LType → Int → Nat) : DataLayout :=
  { intSize := fun bits => (bits + 7) / 8
    intAlign := fun bits => (bits + 7) / 8
    pointerSize := 8
    pointerAlign := 8
    unspecifiedOffset := stray }

/-- The example target; where the layout fixes no value its query yields
`77777`. -/
def target64 : DataLayout := targetWith (fun _ _ => 77777)

/-- Type identifiers of the example unit. -/
def tInt8 : DType := ⟨8⟩
def tInt32 : DType := ⟨32⟩
def tInt64 : DType := ⟨64⟩
def tSize : DType := ⟨0⟩
def tPoint : DType := ⟨100⟩
def tMixed : DType := ⟨101⟩
def tOpaque : DType := ⟨102⟩

/-- The struct `Point` with members `int32 x; int32 y`. -/
def structPoint : Struct := ⟨"Point", [("x", tInt32), ("y", tInt32)]⟩
/-- The struct `Mixed` with members `int8 a; int64 b`. -/
def structMixed : Struct := ⟨"Mixed", [("a", tInt8), ("b", tInt64)]⟩
/-- A struct with a member `p` whose type has no lowering. -/
def structOpaque : Struct := ⟨"Opaque", [("p", ⟨103⟩)]⟩

/-- The example context: `Point`, `Mixed` and `Opaque` are registered structs;
the integer types and the first two structs lower, `Opaque` does not. -/
def exampleCtx : Context :=
  { getStruct := fun t =>
      if t = tPoint then some structPoint
      else if t = tMixed then some structMixed
      else if t = tOpaque then some structOpaque
      else none
    toLLVMType := fun t =>
      if t = tInt8 then some (.int 8)
      else if t = tInt32 then some (.int 32)
      else if t = tInt64 then some (.int 64)
      else if t = tSize then some (.int 64)
      else if t = tPoint then some (.struct [.int 32, .int 32])
      else if t = tMixed then some (.struct [.int 8, .int 64])
      else none
    tr := ⟨tSize⟩ }

/-- The example unit. -/
def exampleUnit : Unit := ⟨exampleCtx, ⟨target64⟩⟩

/-- A code-generation position. -/
def block0 : BasicBlock := ⟨0⟩

/-- A parse result nothing has been written to. -/
def emptyPr : ParseResult := ⟨none, none, none⟩

/-! ## Facts about the layout model -/

theorem le_alignUp (x a : Nat) (ha : 0 < a) : x ≤ alignUp x a := by
  unfold alignUp
  have h1 := Nat.div_add_mod (x + a - 1) a
  have h2 := Nat.mod_lt (x + a - 1) ha
  have h3 : (x + a - 1) / a * a = a * ((x + a - 1) / a) := Nat.mul_comm _ _
  omega

theorem alignUp_mod (x a : Nat) : alignUp x a % a = 0 := by
  unfold alignUp
  exact Nat.mul_mod_left _ _

theorem alignUp_zero (a : Nat) : alignUp 0 a = 0 := by
  unfold alignUp
  rcases Nat.eq_zero_or_pos a with h | h
  · subst h; simp
  · have : (0 + a - 1) / a = 0 := Nat.div_eq_of_lt (by omega)
    rw [this]; simp

theorem lowersStruct_length {ctx : Context} {type : DType} {st : Struct}
    {elems : List LType} (h : ctx.lowersStruct type st elems) :
    elems.length = st.members.length := by
  have := congrArg List.length h.2.2
  simpa using this.symm

/-- Two neighbouring members: the later offset is the earlier one plus the
earlier member's size, aligned up to the later member's alignment. -/
theorem offsetAt_step (dl : DataLayout) :
    ∀ (elems : List LType) (r i : Nat) (a b : LType),
      elems[i]? = some a → elems[i + 1]? = some b →
      ∃ prev, offsetAt dl elems r i = some prev ∧
        offsetAt dl elems r (i + 1) = some (alignUp (prev + sizeOf dl a) (alignOf dl b))
  | [], _, _, _, _, ha, _ => by simp at ha
  | m :: ms, r, 0, a, b, ha, hb => by
    cases ms with
    | nil => simp at hb
    | cons m2 ms2 =>
      simp at ha hb
      subst ha hb
      exact ⟨alignUp r (alignOf dl m), by simp [offsetAt], by simp [offsetAt]⟩
  | m :: ms, r, i + 1, a, b, ha, hb => by
    simp at ha hb
    obtain ⟨prev, h1, h2⟩ := offsetAt_step dl ms
      (alignUp r (alignOf dl m) + sizeOf dl m) i a b ha hb
    exact ⟨prev, by simpa [offsetAt] using h1, by simpa [offsetAt] using h2⟩

/-- The layout query answers exactly for the ordinals below the member count. -/
theorem offsetAt_isSome (dl : DataLayout) :
    ∀ (elems : List LType) (r i : Nat), i < elems.length →
      ∃ off, offsetAt dl elems r i = some off
  | [], _, _, h => by simp at h
  | m :: _, r, 0, _ => ⟨alignUp r (alignOf dl m), by simp [offsetAt]⟩
  | m :: ms, r, i + 1, h => by
    obtain ⟨off, ho⟩ := offsetAt_isSome dl ms
      (alignUp r (alignOf dl m) + sizeOf dl m) i (by simpa using h)
    exact ⟨off, by simpa [offsetAt] using ho⟩

/-- The running offset after the last member is the last member's offset plus
the last member's size. -/
theorem runningEnd_last (dl : DataLayout) :
    ∀ (elems : List LType) (r : Nat) (l : LType), elems.getLast? = some l →
      ∃ off, offsetAt dl elems r (elems.length - 1) = some off ∧
        runningEnd dl elems r = off + sizeOf dl l
  | [], _, _, h => by simp at h
  | [m], r, l, h => by
    simp at h
    subst h
    exact ⟨alignUp r (alignOf dl m), by simp [offsetAt], by simp [runningEnd]⟩
  | m :: m2 :: ms, r, l, h => by
    have h2 : (m2 :: ms).getLast? = some l := by
      simpa [List.getLast?_cons_cons] using h
    obtain ⟨off, h1, h3⟩ := runningEnd_last dl (m2 :: ms)
      (alignUp r (alignOf dl m) + sizeOf dl m) l h2
    refine ⟨off, ?_, ?_⟩
    · simpa [offsetAt] using h1
    · simpa [runningEnd] using h3

theorem le_structAlignment (dl : DataLayout) :
    ∀ (elems : List LType) (m : LType), m ∈ elems → alignOf dl m ≤ structAlignment dl elems
  | [], _, h => by simp at h
  | e :: es, m, h => by
    rw [structAlignment]
    rcases List.mem_cons.mp h with h | h
    · subst h; exact le_max_left _ _
    · exact le_trans (le_structAlignment dl es m h) (le_max_right _ _)

theorem structAlignment_mem (dl : DataLayout) :
    ∀ (elems : List LType), elems ≠ [] →
      ∃ m, m ∈ elems ∧ structAlignment dl elems = alignOf dl m
  | [], h => absurd rfl h
  | [e], _ => ⟨e, by simp, by simp [structAlignment]⟩
  | e :: e2 :: es, _ => by
    obtain ⟨m, hm, he⟩ := structAlignment_mem dl (e2 :: es) (by simp)
    rw [structAlignment]
    rcases le_total (alignOf dl e) (structAlignment dl (e2 :: es)) with h | h
    · exact ⟨m, List.mem_cons_of_mem _ hm, by rw [max_eq_right h, he]⟩
    · exact ⟨e, by simp, by rw [max_eq_left h]⟩

/-! ## Facts about the code -/

theorem scan_absent :
    ∀ (ms : List (String × DType)) (name : String) (i : Int),
      name ∉ ms.map Prod.fst → Struct.scan ms name i = -1
  | [], _, _, _ => rfl
  | m :: rest, name, i, h => by
    have h1 : m.1 ≠ name := fun e => h (by simp [e])
    have h2 : name ∉ rest.map Prod.fst := fun e => h (by
      rw [List.map_cons]; exact List.mem_cons_of_mem _ e)
    rw [Struct.scan, if_neg h1]
    exact scan_absent rest name (i + 1) h2

theorem scan_present :
    ∀ (ms : List (String × DType)) (name : String) (i : Int),
      name ∈ ms.map Prod.fst →
      i ≤ Struct.scan ms name i ∧ Struct.scan ms name i < i + ms.length
  | [], _, _, h => by simp at h
  | m :: rest, name, i, h => by
    rw [Struct.scan]
    by_cases h1 : m.1 = name
    · rw [if_pos h1]
      simp only [List.length_cons]
      push_cast
      omega
    · rw [if_neg h1]
      have h2 : name ∈ rest.map Prod.fst := by
        rw [List.map_cons] at h
        rcases List.mem_cons.mp h with e | e
        · exact absurd e.symm h1
        · exact e
      have := scan_present rest name (i + 1) h2
      simp only [List.length_cons]
      push_cast
      omega

theorem nameToIndex_returned (ctx : Context) (type : DType) (st : Struct)
    (name : String) (hst : ctx.getStruct type = some st)
    (hidx : st.nameToIndex name ≠ -1) :
    nameToIndex ctx type name = .returned (st.nameToIndex name) := by
  simp [nameToIndex, hst, hidx]

theorem OffsetofGet_unit (u u' : Unit) (type : DType) (index : Int) (v : Nat)
    (h : OffsetofGet u type index = .returned (v, u')) : u' = u := by
  cases hl : u.ctx.toLLVMType type with
  | none =>
    simp [OffsetofGet, hl] at h
    exact h.2.symm
  | some lt =>
    simp [OffsetofGet, hl] at h
    exact h.2.symm

theorem OffsetofGet_struct (u : Unit) (type : DType) (elems : List LType)
    (i off : Nat) (hlow : u.ctx.toLLVMType type = some (.struct elems))
    (hoff : offsetAt u.module.getDataLayout elems 0 i = some off) :
    OffsetofGet u type (i : Int) = .returned (off, u) := by
  have hneg : ¬ ((i : Int) < 0) := by omega
  simp [OffsetofGet, hlow, getIndexedOffset, hoff, hneg]

theorem Offsetof_returned (u : Unit) (block : BasicBlock) (type : DType)
    (name : String) (pr : ParseResult) (index : Int) (off : Nat)
    (hidx : nameToIndex u.ctx type name = .returned index)
    (hget : OffsetofGet u type index = .returned (off, u)) :
    Offsetof u block type name pr = .returned (true, u,
      { block := some block, type := some u.ctx.tr.type_size,
        value := some (ConstantInt.get (u.ctx.toLLVMType u.ctx.tr.type_size)
          (off % 2 ^ SIZE_T_BITS)) }) := by
  simp [Offsetof, bind, Outcome.bind, hidx, hget, ParseResult.set, pure]

theorem exampleCtx_lowers_Point :
    exampleCtx.lowersStruct tPoint structPoint [.int 32, .int 32] :=
  ⟨rfl, rfl, rfl⟩

theorem exampleCtx_lowers_Mixed :
    exampleCtx.lowersStruct tMixed structMixed [.int 8, .int 64] :=
  ⟨rfl, rfl, rfl⟩

/-! ## The claims -/

/-- C1: for a struct type `T` that lowers to the members `elems`, and an ordinal
`i` with `1 ≤ i < N`, the offset `OffsetofGet` returns for member `i` is
`alignUp(offset of member i-1 + sizeOf(type of member i-1), alignOf(type of member i))`,
where the offset of member `i-1` is what `OffsetofGet` returns for `i-1`.  This
holds for every layout model (positive alignments are not even needed). -/
theorem C1_member_offset_recurrence (u : Unit) (T : DType) (st : Struct)
    (elems : List LType) (i : Nat) (a b : LType)
    (h : u.ctx.lowersStruct T st elems) (h1 : 1 ≤ i)
    (ha : elems[i - 1]? = some a) (hb : elems[i]? = some b) :
    ∃ prev, OffsetofGet u T ((i - 1 : Nat) : Int) = .returned (prev, u) ∧
      OffsetofGet u T (i : Int) = .returned
        (alignUp (prev + sizeOf u.module.getDataLayout a)
          (alignOf u.module.getDataLayout b), u) := by
  obtain ⟨j, rfl⟩ : ∃ j, i = j + 1 := ⟨i - 1, by omega⟩
  simp only [Nat.add_sub_cancel] at ha ⊢
  obtain ⟨prev, hp, hn⟩ := offsetAt_step u.module.getDataLayout elems 0 j a b ha hb
  exact ⟨prev, OffsetofGet_struct u T elems j prev h.2.1 hp,
    OffsetofGet_struct u T elems (j + 1) _ h.2.1 hn⟩

/-- C1, witness: `Mixed {int8 a; int64 b}` with 8-byte `int64` alignment has
offsets 0 and 8, `Point {int32 x; int32 y}` has offsets 0 and 4. -/
theorem C1_member_offset_recurrence_witness :
    (∃ prev, OffsetofGet exampleUnit tMixed ((1 - 1 : Nat) : Int) = .returned (prev, exampleUnit) ∧
      OffsetofGet exampleUnit tMixed ((1 : Nat) : Int) = .returned
        (alignUp (prev + sizeOf exampleUnit.module.getDataLayout (.int 8))
          (alignOf exampleUnit.module.getDataLayout (.int 64)), exampleUnit)) ∧
    OffsetofGet exampleUnit tMixed 0 = .returned (0, exampleUnit) ∧
    OffsetofGet exampleUnit tMixed 1 = .returned (8, exampleUnit) ∧
    OffsetofGet exampleUnit tPoint 0 = .returned (0, exampleUnit) ∧
    OffsetofGet exampleUnit tPoint 1 = .returned (4, exampleUnit) :=
  ⟨C1_member_offset_recurrence exampleUnit tMixed structMixed [.int 8, .int 64] 1
      (.int 8) (.int 64) exampleCtx_lowers_Mixed (by decide) rfl rfl,
    rfl, rfl, rfl, rfl⟩

/-- C2: for a struct type `T` with at least one member that lowers successfully,
`OffsetofGet(unit, T, 0)` is 0, and `Offsetof` called with the name of member 0
returns true and emits the constant 0 of the size type. -/
theorem C2_first_member_offset_zero (u : Unit) (block : BasicBlock) (T : DType)
    (st : Struct) (elems : List LType) (m0 : String × DType)
    (rest : List (String × DType)) (pr : ParseResult)
    (h : u.ctx.lowersStruct T st elems) (hm : st.members = m0 :: rest) :
    OffsetofGet u T 0 = .returned (0, u) ∧
    Offsetof u block T m0.1 pr = .returned (true, u,
      { block := some block, type := some u.ctx.tr.type_size,
        value := some (ConstantInt.get (u.ctx.toLLVMType u.ctx.tr.type_size) 0) }) := by
  have hlen := lowersStruct_length h
  rw [hm] at hlen
  obtain ⟨e, es, rfl⟩ : ∃ e es, elems = e :: es := by
    cases elems with
    | nil => simp at hlen
    | cons e es => exact ⟨e, es, rfl⟩
  have hget : OffsetofGet u T 0 = .returned (0, u) := by
    have := OffsetofGet_struct u T (e :: es) 0 0 h.2.1 (by simp [offsetAt, alignUp_zero])
    simpa using this
  have hscan : st.nameToIndex m0.1 = 0 := by
    simp [Struct.nameToIndex, hm, Struct.scan]
  have hidx : nameToIndex u.ctx T m0.1 = .returned 0 := by
    have := nameToIndex_returned u.ctx T st m0.1 h.1 (by rw [hscan]; decide)
    rw [hscan] at this
    exact this
  refine ⟨hget, ?_⟩
  have := Offsetof_returned u block T m0.1 pr 0 0 hidx hget
  simpa using this

/-- C2, witness: member `x` of `Point`. -/
theorem C2_first_member_offset_zero_witness :
    OffsetofGet exampleUnit tPoint 0 = .returned (0, exampleUnit) ∧
    Offsetof exampleUnit block0 tPoint "x" emptyPr = .returned (true, exampleUnit,
      { block := some block0, type := some exampleUnit.ctx.tr.type_size,
        value := some (ConstantInt.get
          (exampleUnit.ctx.toLLVMType exampleUnit.ctx.tr.type_size) 0) }) :=
  C2_first_member_offset_zero exampleUnit block0 tPoint structPoint
    [.int 32, .int 32] ("x", tInt32) [("y", tInt32)] emptyPr
    exampleCtx_lowers_Point rfl

/-- C8: for a non-empty struct type `T` whose members have positive alignments,
under the sequential layout algorithm the size of `T` is at least the offset of
the last member plus the size of the last member, the size of `T` is a multiple
of the alignment of `T`, and the alignment of `T` is the maximum member
alignment (it is the alignment of some member and no member has a larger one). -/
theorem C8_struct_size_bounds (u : Unit) (T : DType) (st : Struct)
    (elems : List LType) (l : LType)
    (h : u.ctx.lowersStruct T st elems) (hl : elems.getLast? = some l)
    (hpos : ∀ m ∈ elems, 0 < alignOf u.module.getDataLayout m) :
    (∃ off, OffsetofGet u T ((elems.length - 1 : Nat) : Int) = .returned (off, u) ∧
      off + sizeOf u.module.getDataLayout l ≤
        sizeOf u.module.getDataLayout (.struct elems)) ∧
    sizeOf u.module.getDataLayout (.struct elems) %
      alignOf u.module.getDataLayout (.struct elems) = 0 ∧
    (∃ m ∈ elems, alignOf u.module.getDataLayout (.struct elems) =
      alignOf u.module.getDataLayout m) ∧
    (∀ m ∈ elems, alignOf u.module.getDataLayout m ≤
      alignOf u.module.getDataLayout (.struct elems)) := by
  have hne : elems ≠ [] := by
    intro e; subst e; simp at hl
  obtain ⟨m, hm, hmax⟩ := structAlignment_mem u.module.getDataLayout elems hne
  have hapos : 0 < structAlignment u.module.getDataLayout elems := by
    rw [hmax]; exact hpos m hm
  obtain ⟨off, ho, hend⟩ := runningEnd_last u.module.getDataLayout elems 0 l hl
  refine ⟨⟨off, OffsetofGet_struct u T elems _ off h.2.1 ho, ?_⟩, ?_, ⟨m, hm, ?_⟩, ?_⟩
  · rw [sizeOf, ← hend]
    exact le_alignUp _ _ hapos
  · rw [sizeOf, alignOf]
    exact alignUp_mod _ _
  · rw [alignOf]; exact hmax
  · intro m' hm'
    rw [alignOf]
    exact le_structAlignment u.module.getDataLayout elems m' hm'

/-- C8, witness: `Mixed` on the example target; `sizeOf(Point) = 8` and
`sizeOf(Mixed) = 16`. -/
theorem C8_struct_size_bounds_witness :
    ((∃ off, OffsetofGet exampleUnit tMixed
        (([LType.int 8, LType.int 64].length - 1 : Nat) : Int) = .returned (off, exampleUnit) ∧
      off + sizeOf exampleUnit.module.getDataLayout (.int 64) ≤
        sizeOf exampleUnit.module.getDataLayout (.struct [.int 8, .int 64])) ∧
    sizeOf exampleUnit.module.getDataLayout (.struct [.int 8, .int 64]) %
      alignOf exampleUnit.module.getDataLayout (.struct [.int 8, .int 64]) = 0 ∧
    (∃ m ∈ [LType.int 8, LType.int 64],
      alignOf exampleUnit.module.getDataLayout (.struct [.int 8, .int 64]) =
      alignOf exampleUnit.module.getDataLayout m) ∧
    (∀ m ∈ [LType.int 8, LType.int 64], alignOf exampleUnit.module.getDataLayout m ≤
      alignOf exampleUnit.module.getDataLayout (.struct [.int 8, .int 64]))) ∧
    sizeOf target64 (.struct [.int 32, .int 32]) = 8 ∧
    sizeOf target64 (.struct [.int 8, .int 64]) = 16 :=
  ⟨C8_struct_size_bounds exampleUnit tMixed structMixed [.int 8, .int 64] (.int 64)
      exampleCtx_lowers_Mixed rfl (by
        intro m hm
        simp only [List.mem_cons, List.mem_singleton, List.not_mem_nil, or_false] at hm
        rcases hm with e | e <;> subst e <;> decide),
    rfl, rfl⟩

/-- C3: at a type whose lowering fails, `OffsetofGet` executes `return false;`
and so returns the offset 0, the same value it returns for member 0 of `Point`;
`Offsetof` returns true and emits the constant 0.  No failure is reported. -/
theorem C3_unresolved_type_returns_zero :
    exampleUnit.ctx.toLLVMType tOpaque = none ∧
    OffsetofGet exampleUnit tOpaque 0 = .returned (0, exampleUnit) ∧
    OffsetofGet exampleUnit tOpaque 0 = OffsetofGet exampleUnit tPoint 0 ∧
    Offsetof exampleUnit block0 tOpaque "p" emptyPr = .returned (true, exampleUnit,
      { block := some block0, type := some tSize,
        value := some (Value.constantInt (some (.int 64)) 0) }) :=
  ⟨rfl, rfl, rfl, rfl⟩

/-- C4, as stated, fails: asked for a name that `Point` does not have,
`Offsetof` stops at `assert(index != -1)`; no result, typed or not, reaches the
call site. -/
theorem C4_counterexample :
    Offsetof exampleUnit block0 tPoint "doesNotExist" emptyPr = .aborted .assert_index ∧
    ¬ ∃ r, Offsetof exampleUnit block0 tPoint "doesNotExist" emptyPr = .returned r :=
  ⟨rfl, fun ⟨_, h⟩ => Outcome.noConfusion h⟩

/-- C4, amended: for every struct type `T` and every member name that is not a
member of `T`, `Offsetof` does not return: it stops at `assert(index != -1)` of
`nameToIndex`, before `pr->set` is reached. -/
theorem C4_unknown_member_aborts (u : Unit) (block : BasicBlock) (T : DType)
    (st : Struct) (name : String) (pr : ParseResult)
    (hst : u.ctx.getStruct T = some st)
    (hname : name ∉ st.members.map Prod.fst) :
    Offsetof u block T name pr = .aborted .assert_index := by
  have hscan : st.nameToIndex name = -1 := scan_absent st.members name 0 hname
  simp [Offsetof, bind, Outcome.bind, nameToIndex, hst, hscan]

/-- C4, amended, witness: `Point` has no member `z`. -/
theorem C4_unknown_member_aborts_witness :
    Offsetof exampleUnit block0 tPoint "z" emptyPr = .aborted .assert_index :=
  C4_unknown_member_aborts exampleUnit block0 tPoint structPoint "z" emptyPr rfl
    (by decide)

/-- C5, as stated, fails: asked about the integer type `int8`, which is no
struct, `Offsetof` stops at `assert(st)`; no result reaches the call site. -/
theorem C5_counterexample :
    exampleUnit.ctx.getStruct tInt8 = none ∧
    Offsetof exampleUnit block0 tInt8 "a" emptyPr = .aborted .assert_st ∧
    ¬ ∃ r, Offsetof exampleUnit block0 tInt8 "a" emptyPr = .returned r :=
  ⟨rfl, rfl, fun ⟨_, h⟩ => Outcome.noConfusion h⟩

/-- C5, amended: for every type for which `getStruct` returns null, and every
member name, `Offsetof` does not return: it stops at `assert(st)` of
`nameToIndex`. -/
theorem C5_not_a_struct_aborts (u : Unit) (block : BasicBlock) (T : DType)
    (name : String) (pr : ParseResult) (hst : u.ctx.getStruct T = none) :
    Offsetof u block T name pr = .aborted .assert_st := by
  simp [Offsetof, bind, Outcome.bind, nameToIndex, hst]

/-- C5, amended, witness: `int64` is no struct. -/
theorem C5_not_a_struct_aborts_witness :
    Offsetof exampleUnit block0 tInt64 "b" emptyPr = .aborted .assert_st :=
  C5_not_a_struct_aborts exampleUnit block0 tInt64 "b" emptyPr rfl

/-- C7: for a struct type `T` and a member name that exists in `T`, when
`OffsetofGet(unit, T, nameToIndex(T, name))` resolves to the byte offset `off`
(a value of the 64 bits of `uint64_t` and `size_t`), `Offsetof` returns true,
sets the parse result to exactly the triple (the caller's block, the size type
`type_size`, the integer constant of the lowered size type with value `off`),
and leaves the unit as it was. -/
theorem C7_offsetof_sets_parse_result (u u' : Unit) (block : BasicBlock) (T : DType)
    (st : Struct) (name : String) (pr : ParseResult) (off : Nat)
    (hst : u.ctx.getStruct T = some st)
    (hname : name ∈ st.members.map Prod.fst)
    (hget : OffsetofGet u T (st.nameToIndex name) = .returned (off, u'))
    (hfit : off < 2 ^ SIZE_T_BITS) :
    Offsetof u block T name pr = .returned (true, u,
      { block := some block, type := some u.ctx.tr.type_size,
        value := some (ConstantInt.get (u.ctx.toLLVMType u.ctx.tr.type_size) off) }) ∧
    u' = u := by
  have hu : u' = u := OffsetofGet_unit u u' T _ off hget
  subst hu
  have hidx : st.nameToIndex name ≠ -1 := by
    have := scan_present st.members name 0 hname
    unfold Struct.nameToIndex
    omega
  have := Offsetof_returned u' block T name pr _ off
    (nameToIndex_returned u'.ctx T st name hst hidx) hget
  rw [Nat.mod_eq_of_lt hfit] at this
  exact ⟨this, rfl⟩

/-- C7, witness: member `b` of `Mixed`, at offset 8. -/
theorem C7_offsetof_sets_parse_result_witness :
    Offsetof exampleUnit block0 tMixed "b" emptyPr = .returned (true, exampleUnit,
      { block := some block0, type := some exampleUnit.ctx.tr.type_size,
        value := some (ConstantInt.get
          (exampleUnit.ctx.toLLVMType exampleUnit.ctx.tr.type_size) 8) }) ∧
    exampleUnit = exampleUnit :=
  C7_offsetof_sets_parse_result exampleUnit exampleUnit block0 tMixed structMixed
    "b" emptyPr 8 rfl (by decide) rfl (by decide)

/-- C10: lookup by name and lookup by index agree: for a struct type `T` and a
member name of `T` with ordinal `i = T.nameToIndex(name)`, `Offsetof` ends as
`OffsetofGetByIndex(unit, T, i)` does, and when that returns the value `v` the
constant `Offsetof` emits has the value `v`; and `OffsetofGetByIndex(unit, T, i)`
ends as `OffsetofGet(unit, T, i)` does, its value narrowed to `size_t`. -/
theorem C10_name_and_index_agree (u : Unit) (block : BasicBlock) (T : DType)
    (st : Struct) (name : String) (pr : ParseResult)
    (hst : u.ctx.getStruct T = some st)
    (hname : name ∈ st.members.map Prod.fst) :
    Offsetof u block T name pr =
      (OffsetofGetByIndex u T (st.nameToIndex name)).bind (fun r =>
        .returned (true, r.2,
          { block := some block, type := some r.2.ctx.tr.type_size,
            value := some (ConstantInt.get
              (r.2.ctx.toLLVMType r.2.ctx.tr.type_size) r.1) })) ∧
    OffsetofGetByIndex u T (st.nameToIndex name) =
      (OffsetofGet u T (st.nameToIndex name)).bind (fun r =>
        .returned (r.1 % 2 ^ SIZE_T_BITS, r.2)) := by
  have hidx : st.nameToIndex name ≠ -1 := by
    have := scan_present st.members name 0 hname
    unfold Struct.nameToIndex
    omega
  have hn := nameToIndex_returned u.ctx T st name hst hidx
  constructor
  · cases hg : OffsetofGet u T (st.nameToIndex name) with
    | aborted a => simp [Offsetof, OffsetofGetByIndex, bind, Outcome.bind, hn, hg]
    | returned r =>
      simp [Offsetof, OffsetofGetByIndex, bind, Outcome.bind, hn, hg, pure,
        ParseResult.set]
  · rfl

/-- C10, witness: member `y` of `Point` has ordinal 1; by name and by index the
offset is 4. -/
theorem C10_name_and_index_agree_witness :
    (Offsetof exampleUnit block0 tPoint "y" emptyPr =
      (OffsetofGetByIndex exampleUnit tPoint (structPoint.nameToIndex "y")).bind (fun r =>
        .returned (true, r.2,
          { block := some block0, type := some r.2.ctx.tr.type_size,
            value := some (ConstantInt.get
              (r.2.ctx.toLLVMType r.2.ctx.tr.type_size) r.1) })) ∧
    OffsetofGetByIndex exampleUnit tPoint (structPoint.nameToIndex "y") =
      (OffsetofGet exampleUnit tPoint (structPoint.nameToIndex "y")).bind (fun r =>
        .returned (r.1 % 2 ^ SIZE_T_BITS, r.2))) ∧
    structPoint.nameToIndex "y" = 1 ∧
    OffsetofGetByIndex exampleUnit tPoint 1 = .returned (4, exampleUnit) :=
  ⟨C10_name_and_index_agree exampleUnit block0 tPoint structPoint "y" emptyPr rfl
    (by decide), rfl, rfl⟩

end dale
